import Mathlib

/-!
Verification development for the MuseCam realtime media pipeline.

The definitions below are a shallow embedding of the repository's core:
the frame compositor's crop-and-draw pass (components/Recorder.tsx, draw),
the capture session's stop path (components/Recorder.tsx, recording effect),
the audio uplink codec (useGeminiInterviewer, createBlob) and the
assistant session's message reduction and teardown (useGeminiInterviewer,
onmessage / cleanup).  Numbers that the source handles as JS doubles are
embedded as exact rationals; machine integer conversions are spelled out
with explicit truncation and modulus.
-/

/-- Truncation toward zero of a rational, matching the integer conversion
step of JavaScript's ToInt16 abstract operation (trunc): floor for
non-negative input, ceiling (written as a negated floor) otherwise. -/
def ratTrunc (x : ℚ) : Int := if 0 ≤ x then ⌊x⌋ else -⌊-x⌋

/-- JavaScript Math.round semantics on an exact rational: floor of x + 1/2. -/
def ratRound (x : ℚ) : Int := ⌊x + 1/2⌋

/-! ### Frame compositor (components/Recorder.tsx, draw) -/

/-- Output frame configuration: pixel width and height of the output canvas. -/
structure VideoConfig where
  width : ℚ
  height : ℚ
deriving DecidableEq

/-- The aspect-ratio choices of types.ts. -/
inductive AspectRatio where
  | PORTRAIT_9_16
  | LANDSCAPE_16_9
  | PORTRAIT_3_4
  | SQUARE_1_1
deriving DecidableEq

/-- The fixed lookup table of types.ts. -/
def ASPECT_RATIO_CONFIGS : AspectRatio → VideoConfig
  | AspectRatio.PORTRAIT_9_16 => ⟨405, 720⟩
  | AspectRatio.LANDSCAPE_16_9 => ⟨720, 405⟩
  | AspectRatio.PORTRAIT_3_4 => ⟨540, 720⟩
  | AspectRatio.SQUARE_1_1 => ⟨600, 600⟩

/-- The source sub-rectangle passed to ctx.drawImage. -/
structure CropRect where
  sx : ℚ
  sy : ℚ
  sWidth : ℚ
  sHeight : ℚ
deriving DecidableEq

/-- The center-crop computation inlined in draw (Recorder.tsx lines 89-108):
compare source and target ratios and take either full height or full width. -/
def computeCrop (vw vh cw ch : ℚ) : CropRect :=
  if vw / vh > cw / ch then
    ⟨(vw - vh * (cw / ch)) / 2, 0, vh * (cw / ch), vh⟩
  else
    ⟨0, (vh - vw / (cw / ch)) / 2, vw, vw / (cw / ch)⟩

/-- The live video element as the draw pass sees it. -/
structure VideoElement where
  videoWidth : ℚ
  videoHeight : ℚ
deriving DecidableEq

/-- The refs the draw pass dereferences, plus whether getContext succeeds. -/
structure DrawRefs where
  videoRef : Option VideoElement
  canvasRef : Option VideoConfig
  ctxObtainable : Bool
deriving DecidableEq

/-- Observable outcome of one draw pass. -/
structure DrawOutcome where
  drewFrame : Option CropRect
  canvasSize : Option VideoConfig
  scheduledNext : Bool
deriving DecidableEq

/-- One tick of the compositing loop (Recorder.tsx, draw): an early return
when a ref is null or the 2D context is unavailable skips the whole body,
including the trailing requestAnimationFrame call; otherwise the canvas is
sized to the config, the crop is drawn and the next tick is scheduled. -/
def draw (config : VideoConfig) (refs : DrawRefs) : DrawOutcome :=
  match refs.videoRef, refs.canvasRef with
  | some video, some _ =>
    if refs.ctxObtainable then
      { drewFrame := some (computeCrop video.videoWidth video.videoHeight config.width config.height),
        canvasSize := some config,
        scheduledNext := true }
    else
      { drewFrame := none, canvasSize := none, scheduledNext := false }
  | _, _ => { drewFrame := none, canvasSize := none, scheduledNext := false }

example : computeCrop 1920 1080 720 405 = ⟨0, 0, 1920, 1080⟩ := by norm_num [computeCrop]
example : computeCrop 1920 1080 405 720 = ⟨656.25, 0, 607.5, 1080⟩ := by norm_num [computeCrop]
example : (draw ⟨720, 405⟩ ⟨none, some ⟨720, 405⟩, true⟩).scheduledNext = false := by decide

/-! ### Audio uplink codec (useGeminiInterviewer, createBlob) -/

/-- The base64 alphabet used by btoa: index 0-63 to character. -/
def b64Tbl (n : Nat) : Char :=
  if n < 26 then Char.ofNat (65 + n)
  else if n < 52 then Char.ofNat (97 + (n - 26))
  else if n < 62 then Char.ofNat (48 + (n - 52))
  else if n = 62 then '+' else '/'

/-- The inverse base64 alphabet lookup used when decoding. -/
def b64Idx (c : Char) : Nat :=
  if 65 ≤ c.toNat ∧ c.toNat ≤ 90 then c.toNat - 65
  else if 97 ≤ c.toNat ∧ c.toNat ≤ 122 then c.toNat - 97 + 26
  else if 48 ≤ c.toNat ∧ c.toNat ≤ 57 then c.toNat - 48 + 52
  else if c = '+' then 62 else 63

/-- The browser's btoa on a byte sequence: groups of three bytes become four
base64 characters, with '=' padding for a final group of one or two bytes. -/
def btoa : List Nat → List Char
  | [] => []
  | [b1] => [b64Tbl (b1 / 4), b64Tbl (b1 % 4 * 16), '=', '=']
  | [b1, b2] => [b64Tbl (b1 / 4), b64Tbl (b1 % 4 * 16 + b2 / 16), b64Tbl (b2 % 16 * 4), '=']
  | b1 :: b2 :: b3 :: rest =>
      b64Tbl (b1 / 4) :: b64Tbl (b1 % 4 * 16 + b2 / 16) :: b64Tbl (b2 % 16 * 4 + b3 / 64)
        :: b64Tbl (b3 % 64) :: btoa rest

/-- The browser's atob on well-formed base64 text: four characters back to
three bytes, with '=' padding cutting the final group short. -/
def atob : List Char → List Nat
  | c1 :: c2 :: c3 :: c4 :: rest =>
      if c3 = '=' then [b64Idx c1 * 4 + b64Idx c2 / 16]
      else if c4 = '=' then
        [b64Idx c1 * 4 + b64Idx c2 / 16, b64Idx c2 % 16 * 16 + b64Idx c3 / 4]
      else
        (b64Idx c1 * 4 + b64Idx c2 / 16)
          :: (b64Idx c2 % 16 * 16 + b64Idx c3 / 4)
          :: (b64Idx c3 % 4 * 64 + b64Idx c4)
          :: atob rest
  | _ => []

/-- JavaScript's ToInt16 conversion, as stored in an Int16Array element:
truncate toward zero, then reduce modulo 2^16 to the unsigned bit pattern. -/
def toUint16 (x : ℚ) : Nat := ((ratTrunc x) % 65536).toNat

/-- Read a 16-bit unsigned bit pattern back as a signed (two's complement)
integer, the way the Int16Array element is observed. -/
def uint16ToInt (u : Nat) : Int := if 32768 ≤ u then (u : Int) - 65536 else (u : Int)

/-- The Int16Array built by createBlob: int16[i] = data[i] * 32768, stored as
unsigned 16-bit patterns. -/
def int16Array (samples : List ℚ) : List Nat :=
  samples.map (fun s => toUint16 (s * 32768))

/-- The Uint8Array view of the Int16Array buffer: each element contributes
its low byte then its high byte (little-endian). -/
def int16Bytes (xs : List Nat) : List Nat :=
  xs.flatMap (fun u => [u % 256, u / 256])

/-- The packet returned by createBlob. -/
structure GenAiBlob where
  data : List Char
  mimeType : String
deriving DecidableEq

/-- createBlob (useGeminiInterviewer lines 18-37): quantize the float samples
into an Int16Array, view its buffer as bytes, base64-encode those bytes with
btoa, and pair the text with the fixed PCM mime type. -/
def createBlob (samples : List ℚ) : GenAiBlob :=
  { data := btoa (int16Bytes (int16Array samples)),
    mimeType := "audio/pcm;rate=16000" }

/-- Decoding step used to state the round-trip properties: read a byte list
as little-endian 16-bit signed integers. -/
def bytesToInt16LE : List Nat → List Int
  | lo :: hi :: rest => uint16ToInt (lo + hi * 256) :: bytesToInt16LE rest
  | _ => []

example : btoa [77, 97, 110] = ['T', 'W', 'F', 'u'] := by decide
example : atob (btoa [77, 97, 110, 5]) = [77, 97, 110, 5] := by decide
example : atob (btoa [77, 97]) = [77, 97] := by decide

theorem b64Idx_b64Tbl : ∀ n < 64, b64Idx (b64Tbl n) = n := by decide

theorem b64Tbl_ne_pad : ∀ n < 64, b64Tbl n ≠ '=' := by decide

theorem atob_btoa (bs : List Nat) (h : ∀ b ∈ bs, b < 256) : atob (btoa bs) = bs := by
  induction bs using btoa.induct with
  | case1 => rfl
  | case2 b1 =>
    have hb1 : b1 < 256 := h b1 (by simp)
    rw [btoa, atob, if_pos rfl]
    rw [b64Idx_b64Tbl (b1 / 4) (by omega), b64Idx_b64Tbl (b1 % 4 * 16) (by omega)]
    simp only [List.cons.injEq, and_true]
    omega
  | case3 b1 b2 =>
    have hb1 : b1 < 256 := h b1 (by simp)
    have hb2 : b2 < 256 := h b2 (by simp)
    rw [btoa, atob, if_neg (b64Tbl_ne_pad (b2 % 16 * 4) (by omega)), if_pos rfl]
    rw [b64Idx_b64Tbl (b1 / 4) (by omega), b64Idx_b64Tbl (b1 % 4 * 16 + b2 / 16) (by omega),
      b64Idx_b64Tbl (b2 % 16 * 4) (by omega)]
    simp only [List.cons.injEq, and_true]
    omega
  | case4 b1 b2 b3 rest ih =>
    have hb1 : b1 < 256 := h b1 (by simp)
    have hb2 : b2 < 256 := h b2 (by simp)
    have hb3 : b3 < 256 := h b3 (by simp)
    rw [btoa, atob, if_neg (b64Tbl_ne_pad (b2 % 16 * 4 + b3 / 64) (by omega)),
      if_neg (b64Tbl_ne_pad (b3 % 64) (by omega))]
    rw [b64Idx_b64Tbl (b1 / 4) (by omega), b64Idx_b64Tbl (b1 % 4 * 16 + b2 / 16) (by omega),
      b64Idx_b64Tbl (b2 % 16 * 4 + b3 / 64) (by omega), b64Idx_b64Tbl (b3 % 64) (by omega)]
    rw [ih (fun b hb => h b (by simp [hb]))]
    simp only [List.cons.injEq, and_true]
    omega

theorem toUint16_lt (x : ℚ) : toUint16 x < 65536 := by
  have h0 : 0 ≤ ratTrunc x % 65536 := Int.emod_nonneg _ (by norm_num)
  have h1 : ratTrunc x % 65536 < 65536 := Int.emod_lt_of_pos _ (by norm_num)
  rw [toUint16]
  omega

theorem int16Bytes_lt_256 (xs : List Nat) (h : ∀ u ∈ xs, u < 65536) :
    ∀ b ∈ int16Bytes xs, b < 256 := by
  intro b hb
  rw [int16Bytes] at hb
  simp only [List.mem_flatMap] at hb
  obtain ⟨u, hu, hbu⟩ := hb
  have := h u hu
  simp only [List.mem_cons, List.not_mem_nil, or_false] at hbu
  rcases hbu with rfl | rfl <;> omega

theorem bytesToInt16LE_int16Bytes (xs : List Nat) :
    bytesToInt16LE (int16Bytes xs) = xs.map uint16ToInt := by
  induction xs with
  | nil => rfl
  | cons u us ih =>
    rw [int16Bytes] at ih ⊢
    simp only [List.flatMap_cons, List.cons_append, List.nil_append, List.map_cons]
    rw [bytesToInt16LE, ih]
    have : u % 256 + u / 256 * 256 = u := by omega
    rw [this]

/-! ### Capture session stop path (components/Recorder.tsx, recording effect) -/

/-- MediaRecorder.state as the effect observes it. -/
inductive MediaRecorderPhase where
  | recording
  | inactive
deriving DecidableEq

/-- One MediaRecorder instance: its state and the accumulated chunk ids. -/
structure RecorderModel where
  phase : MediaRecorderPhase
  chunks : List Nat
deriving DecidableEq

/-- State touched by the stop branch of the recording effect. -/
structure CaptureState where
  mediaRecorderRef : Option RecorderModel
  currentQuestion : String
deriving DecidableEq

/-- The else-branch of the recording effect (Recorder.tsx lines 165-170): if
a recorder exists and is not inactive, stop it; MediaRecorder.stop fires the
onstop handler once, which assembles the chunks into one finished blob,
emits it, and clears the question.  The second component lists the
FinishedMedia emissions (each one the chunk list of the assembled blob). -/
def stopRecordingEffect (s : CaptureState) : CaptureState × List (List Nat) :=
  match s.mediaRecorderRef with
  | none => (s, [])
  | some r =>
    if r.phase = MediaRecorderPhase.inactive then (s, [])
    else ({ mediaRecorderRef := some { r with phase := MediaRecorderPhase.inactive },
            currentQuestion := "" }, [r.chunks])

/-! ### Assistant session (useGeminiInterviewer: onmessage, cleanup) -/

/-- The server event fields onmessage inspects: the optional transcription
fragment (message.serverContent?.outputTranscription?.text) and the
turn-complete flag. -/
structure ServerMessage where
  outputTranscriptionText : Option String
  turnComplete : Bool
deriving DecidableEq

/-- The onmessage callback's effect on currentQuestion (useGeminiInterviewer
lines 79-105): a present, non-empty fragment is appended to the previous
prompt; the turn-complete branch only logs and changes nothing. -/
def onmessage (prompt : String) (m : ServerMessage) : String :=
  match m.outputTranscriptionText with
  | some t => if t = "" then prompt else prompt ++ t
  | none => prompt

/-- Reduction of a whole arrival-ordered event sequence. -/
def applyMessages (prompt : String) (ms : List ServerMessage) : String :=
  ms.foldl onmessage prompt

/-- A transcription-fragment event as the server sends it. -/
def fragmentMessage (t : String) : ServerMessage :=
  { outputTranscriptionText := some t, turnComplete := false }

/-- The resource handles and UI state the hook's cleanup touches; a true
flag means the ref currently holds a live handle. -/
structure AssistantState where
  isConnected : Bool
  currentQuestion : String
  sessionRef : Bool
  scriptProcessorRef : Bool
  sourceRef : Bool
  audioContextRef : Bool
deriving DecidableEq

/-- Hypothetical synchronous failures of the three direct resource calls in
cleanup; the remote-session close runs inside a promise callback, so a
failure there can never abort cleanup and needs no flag. -/
structure CleanupFaults where
  processorDisconnectThrows : Bool
  sourceDisconnectThrows : Bool
  contextCloseThrows : Bool
deriving DecidableEq

/-- The fault-free run. -/
def noFaults : CleanupFaults := ⟨false, false, false⟩

/-- One null-guarded teardown statement with exception propagation: an
earlier uncaught throw skips the statement; otherwise, if the handle is
present, the call either throws or clears the handle. -/
def guardedStep (thrown : Bool) (get : AssistantState → Bool)
    (clear : AssistantState → AssistantState) :
    AssistantState × Bool → AssistantState × Bool
  | (s, true) => (s, true)
  | (s, false) =>
    if get s then (if thrown then (s, true) else (clear s, false)) else (s, false)

/-- cleanup (useGeminiInterviewer lines 182-205), with the Boolean recording
whether an exception escaped: reset the connected flag and the prompt, null
the session ref (its close runs asynchronously), then disconnect the
processor, disconnect the source, and close the audio context, each behind
a null check only — there is no try/catch, so a synchronous throw in one
call aborts the remaining statements. -/
def cleanup (f : CleanupFaults) (s : AssistantState) : AssistantState × Bool :=
  let s1 : AssistantState := { s with isConnected := false, currentQuestion := "" }
  let s2 : AssistantState := if s1.sessionRef then { s1 with sessionRef := false } else s1
  guardedStep f.contextCloseThrows (fun st => st.audioContextRef)
    (fun st => { st with audioContextRef := false })
    (guardedStep f.sourceDisconnectThrows (fun st => st.sourceRef)
      (fun st => { st with sourceRef := false })
      (guardedStep f.processorDisconnectThrows (fun st => st.scriptProcessorRef)
        (fun st => { st with scriptProcessorRef := false })
        (s2, false)))

example :
    applyMessages "" (["Wh", "at", " do"].map fragmentMessage) = "What do" := by decide
example :
    (cleanup noFaults ⟨true, "q", true, true, true, true⟩).1 =
      ⟨false, "", false, false, false, false⟩ := by decide
example : (cleanup ⟨true, false, false⟩ ⟨true, "q", true, true, true, true⟩).1.audioContextRef = true := by
  decide

/-! ### Shared helper lemmas -/

theorem join_cons_str (t : String) (ts : List String) :
    String.join (t :: ts) = t ++ String.join ts := by
  cases t
  rw [String.join_eq, String.join_eq]
  rfl

/-! ### Claim theorems -/

/-- C1 (counterexample): with the video ref still null but the canvas and
its 2D context available, the draw pass is skipped AND the next tick is not
scheduled, contradicting the claim that a skipped pass still schedules the
next tick. -/
theorem draw_skip_stops_schedule_cx :
    (draw ⟨720, 405⟩ ⟨none, some ⟨720, 405⟩, true⟩).drewFrame = none ∧
      (draw ⟨720, 405⟩ ⟨none, some ⟨720, 405⟩, true⟩).scheduledNext = false := by
  constructor <;> rfl

/-- C1 (amended): on every compositing tick on which the draw pass is
skipped because the video source is unavailable, the output surface is
unavailable, or its 2D drawing context cannot be obtained, the draw
operation returns early WITHOUT scheduling the next tick; the early return
precedes the requestAnimationFrame call, so a single bad frame stops the
schedule loop until the owning effect restarts it. -/
theorem draw_skip_no_reschedule (config : VideoConfig) (refs : DrawRefs)
    (h : refs.videoRef = none ∨ refs.canvasRef = none ∨ refs.ctxObtainable = false) :
    (draw config refs).drewFrame = none ∧ (draw config refs).scheduledNext = false := by
  obtain ⟨v, c, ctx⟩ := refs
  simp only at h
  rcases h with h | h | h
  · subst h
    cases c <;> exact ⟨rfl, rfl⟩
  · subst h
    cases v <;> exact ⟨rfl, rfl⟩
  · subst h
    cases v <;> cases c <;> exact ⟨rfl, rfl⟩

/-- C1 (witness for the amended theorem), at a null video ref. -/
theorem draw_skip_no_reschedule_witness :
    (draw ⟨720, 405⟩ ⟨none, some ⟨720, 405⟩, true⟩).drewFrame = none ∧
      (draw ⟨720, 405⟩ ⟨none, some ⟨720, 405⟩, true⟩).scheduledNext = false :=
  draw_skip_no_reschedule ⟨720, 405⟩ ⟨none, some ⟨720, 405⟩, true⟩ (Or.inl rfl)

/-- C4 (counterexample): with every handle live, if the audio-processing
node's disconnect throws, cleanup aborts: the exception escapes and neither
the source node disconnect nor the audio context close executes, so the
teardown actions are NOT exception-guarded as the claim states. -/
theorem cleanup_throw_skips_teardown_cx :
    (cleanup ⟨true, false, false⟩ ⟨true, "q", true, true, true, true⟩).2 = true ∧
      (cleanup ⟨true, false, false⟩ ⟨true, "q", true, true, true, true⟩).1.sourceRef = true ∧
      (cleanup ⟨true, false, false⟩ ⟨true, "q", true, true, true, true⟩).1.audioContextRef = true := by
  refine ⟨rfl, rfl, rfl⟩

/-- C4 (amended): the teardown actions of cleanup are each guarded by a
null check on their handle, not by an exception guard; when none of the
synchronous resource calls throws, all of them execute from any state:
the remote session ref is cleared (its close having been scheduled), the
processing node and source node are disconnected and discarded, the audio
context is closed, CurrentPrompt is cleared and the state set to
disconnected, and no exception escapes.  (A synchronous throw in one call
skips the remaining ones, as the counterexample shows.) -/
theorem cleanup_noFaults_clears_all (s : AssistantState) :
    cleanup noFaults s = (⟨false, "", false, false, false, false⟩, false) := by
  obtain ⟨ic, q, se, sp, so, ac⟩ := s
  cases se <;> cases sp <;> cases so <;> cases ac <;> rfl

/-- C5: invoking the assistant session teardown from any state — covering
Disconnected, Connecting, Connected and Closing handle configurations,
including never-connected — completes without an escaping exception and
always leaves the session disconnected with an empty CurrentPrompt and all
four resource handles cleared; invoking it twice in a row gives the same
final state, the second call being a no-op on the already-cleared state. -/
theorem cleanup_idempotent_from_any_state (s : AssistantState) :
    (cleanup noFaults s).2 = false ∧
      (cleanup noFaults s).1.isConnected = false ∧
      (cleanup noFaults s).1.currentQuestion = "" ∧
      (cleanup noFaults s).1.sessionRef = false ∧
      (cleanup noFaults s).1.scriptProcessorRef = false ∧
      (cleanup noFaults s).1.sourceRef = false ∧
      (cleanup noFaults s).1.audioContextRef = false ∧
      cleanup noFaults (cleanup noFaults s).1 = cleanup noFaults s := by
  obtain ⟨ic, q, se, sp, so, ac⟩ := s
  cases se <;> cases sp <;> cases so <;> cases ac <;>
    exact ⟨rfl, rfl, rfl, rfl, rfl, rfl, rfl, rfl⟩

/-- C6: the reducer appends each arriving fragment to CurrentPrompt in
arrival order with no reordering and no deduplication — the final prompt is
the previous prompt followed by the concatenation of the fragments — and in
particular the fragments "Wh", "at", " do", " you", " love?" starting from
the empty prompt produce "What do you love?". -/
theorem applyMessages_append_in_order :
    (∀ (p : String) (frags : List String),
        applyMessages p (frags.map fragmentMessage) = p ++ String.join frags) ∧
      applyMessages "" (["Wh", "at", " do", " you", " love?"].map fragmentMessage) =
        "What do you love?" := by
  have key : ∀ (frags : List String) (p : String),
      applyMessages p (frags.map fragmentMessage) = p ++ String.join frags := by
    intro frags
    induction frags with
    | nil =>
      intro p
      simp [applyMessages, String.join]
    | cons t ts ih =>
      intro p
      rw [List.map_cons, applyMessages, List.foldl_cons, join_cons_str,
        ← String.append_assoc]
      have hstep : onmessage p (fragmentMessage t) = p ++ t := by
        by_cases ht : t = ""
        · subst ht
          simp [onmessage, fragmentMessage]
        · simp [onmessage, fragmentMessage, ht]
      rw [hstep]
      exact ih (p ++ t)
  exact ⟨fun p frags => key frags p, by rw [key]; rfl⟩

/-- C7: stopping the capture session twice in a row produces exactly one
FinishedMedia emission — the first stop of an actively recording session
emits the single assembled blob, the second call is a no-op on the now
inactive recorder — and a stop with no recorder, or with an inactive one,
changes nothing and emits nothing. -/
theorem stopRecordingEffect_idempotent :
    (∀ s : CaptureState,
        (stopRecordingEffect (stopRecordingEffect s).1).2 = [] ∧
          (stopRecordingEffect (stopRecordingEffect s).1).1 = (stopRecordingEffect s).1) ∧
      (∀ (s : CaptureState) (r : RecorderModel), s.mediaRecorderRef = some r →
        r.phase = MediaRecorderPhase.recording → (stopRecordingEffect s).2 = [r.chunks]) ∧
      (∀ s : CaptureState, s.mediaRecorderRef = none → stopRecordingEffect s = (s, [])) ∧
      (∀ (s : CaptureState) (r : RecorderModel), s.mediaRecorderRef = some r →
        r.phase = MediaRecorderPhase.inactive → stopRecordingEffect s = (s, [])) := by
  refine ⟨?_, ?_, ?_, ?_⟩
  · intro s
    obtain ⟨mr, q⟩ := s
    rcases mr with _ | r
    · exact ⟨rfl, rfl⟩
    · obtain ⟨ph, ck⟩ := r
      cases ph <;> exact ⟨rfl, rfl⟩
  · intro s r hs hr
    obtain ⟨mr, q⟩ := s
    simp only at hs
    subst hs
    obtain ⟨ph, ck⟩ := r
    simp only at hr
    subst hr
    rfl
  · intro s hs
    obtain ⟨mr, q⟩ := s
    simp only at hs
    subst hs
    rfl
  · intro s r hs hr
    obtain ⟨mr, q⟩ := s
    simp only at hs
    subst hs
    obtain ⟨ph, ck⟩ := r
    simp only at hr
    subst hr
    rfl

/-- C7 (witness): a concrete actively-recording session stopped twice emits
exactly one finished blob and the second stop is a no-op. -/
theorem stopRecordingEffect_idempotent_witness :
    (stopRecordingEffect ⟨some ⟨MediaRecorderPhase.recording, [7, 8]⟩, "q"⟩).2 = [[7, 8]] ∧
      (stopRecordingEffect
        (stopRecordingEffect ⟨some ⟨MediaRecorderPhase.recording, [7, 8]⟩, "q"⟩).1).2 = [] :=
  ⟨stopRecordingEffect_idempotent.2.1 ⟨some ⟨MediaRecorderPhase.recording, [7, 8]⟩, "q"⟩
      ⟨MediaRecorderPhase.recording, [7, 8]⟩ rfl rfl,
    (stopRecordingEffect_idempotent.1 ⟨some ⟨MediaRecorderPhase.recording, [7, 8]⟩, "q"⟩).1⟩

/-- C8: the turn-complete flag of an incoming message never changes the
reduced prompt — onmessage gives the same result whatever the flag's value
— and a pure turn-complete message, carrying no transcription fragment,
leaves CurrentPrompt exactly unchanged. -/
theorem onmessage_turnComplete_no_effect :
    (∀ (p : String) (t : Option String) (b₁ b₂ : Bool),
        onmessage p ⟨t, b₁⟩ = onmessage p ⟨t, b₂⟩) ∧
      (∀ (p : String) (b : Bool), onmessage p ⟨none, b⟩ = p) := by
  exact ⟨fun p t b₁ b₂ => rfl, fun p b => rfl⟩

/-- C3: for strictly positive source resolution (vw, vh) and target config
(cw, ch), the crop rectangle stays inside the source frame, keeps exactly
the target aspect ratio, and is centered on both axes. -/
theorem computeCrop_in_bounds_centered (vw vh cw ch : ℚ)
    (hvw : 0 < vw) (hvh : 0 < vh) (hcw : 0 < cw) (hch : 0 < ch) :
    0 ≤ (computeCrop vw vh cw ch).sx ∧ 0 ≤ (computeCrop vw vh cw ch).sy ∧
      (computeCrop vw vh cw ch).sx + (computeCrop vw vh cw ch).sWidth ≤ vw ∧
      (computeCrop vw vh cw ch).sy + (computeCrop vw vh cw ch).sHeight ≤ vh ∧
      (computeCrop vw vh cw ch).sWidth / (computeCrop vw vh cw ch).sHeight = cw / ch ∧
      (computeCrop vw vh cw ch).sx = (vw - (computeCrop vw vh cw ch).sWidth) / 2 ∧
      (computeCrop vw vh cw ch).sy = (vh - (computeCrop vw vh cw ch).sHeight) / 2 := by
  rw [computeCrop]
  split_ifs with hr
  · have hW : vh * (cw / ch) < vw := by
      have h2 : vh * (cw / ch) < vh * (vw / vh) := mul_lt_mul_of_pos_left hr hvh
      have h3 : vh * (vw / vh) = vw := by
        field_simp
      linarith
    refine ⟨by linarith, le_refl 0, by linarith, by linarith, ?_, rfl, by norm_num⟩
    rw [mul_comm, mul_div_assoc, div_self (ne_of_gt hvh), mul_one]
  · have hr' : vw / vh ≤ cw / ch := le_of_not_lt hr
    have hcr : (0 : ℚ) < cw / ch := div_pos hcw hch
    have hH : vw / (cw / ch) ≤ vh := by
      rw [div_le_iff₀ hcr]
      have h2 : vh * (vw / vh) ≤ vh * (cw / ch) := mul_le_mul_of_nonneg_left hr' (le_of_lt hvh)
      have h3 : vh * (vw / vh) = vw := by
        field_simp
      linarith [mul_comm vh (cw / ch)]
    have hHpos : (0 : ℚ) < vw / (cw / ch) := div_pos hvw hcr
    refine ⟨le_refl 0, by linarith, by linarith, by linarith, ?_, by norm_num, rfl⟩
    rw [div_div_eq_mul_div, mul_comm, mul_div_assoc, div_self (ne_of_gt hvw), mul_one]

/-- C3 (witness): the bounds and centering facts at a concrete wider-than
source, 1280x720 into a 405x720 portrait config. -/
theorem computeCrop_in_bounds_centered_witness :
    0 ≤ (computeCrop 1280 720 405 720).sx ∧ 0 ≤ (computeCrop 1280 720 405 720).sy ∧
      (computeCrop 1280 720 405 720).sx + (computeCrop 1280 720 405 720).sWidth ≤ 1280 ∧
      (computeCrop 1280 720 405 720).sy + (computeCrop 1280 720 405 720).sHeight ≤ 720 ∧
      (computeCrop 1280 720 405 720).sWidth / (computeCrop 1280 720 405 720).sHeight =
        405 / 720 ∧
      (computeCrop 1280 720 405 720).sx = (1280 - (computeCrop 1280 720 405 720).sWidth) / 2 ∧
      (computeCrop 1280 720 405 720).sy = (720 - (computeCrop 1280 720 405 720).sHeight) / 2 :=
  computeCrop_in_bounds_centered 1280 720 405 720 (by norm_num) (by norm_num) (by norm_num)
    (by norm_num)

/-- C9: for the 16:9 config (720x405) and a 1920x1080 source the ratios
match exactly, the wider-than branch condition is false, and the crop is
the identity rectangle sx=0, sy=0, sWidth=1920, sHeight=1080. -/
theorem computeCrop_exact_match_16_9 :
    ¬ ((1920 : ℚ) / 1080 >
        (ASPECT_RATIO_CONFIGS AspectRatio.LANDSCAPE_16_9).width /
          (ASPECT_RATIO_CONFIGS AspectRatio.LANDSCAPE_16_9).height) ∧
      computeCrop 1920 1080 (ASPECT_RATIO_CONFIGS AspectRatio.LANDSCAPE_16_9).width
          (ASPECT_RATIO_CONFIGS AspectRatio.LANDSCAPE_16_9).height =
        ⟨0, 0, 1920, 1080⟩ := by
  constructor
  · norm_num [ASPECT_RATIO_CONFIGS]
  · norm_num [ASPECT_RATIO_CONFIGS, computeCrop]

/-! ### Concrete quantizer evaluations (helpers for the codec claims) -/

theorem ratTrunc_one_scaled : ratTrunc ((1 : ℚ) * 32768) = 32768 := by
  rw [ratTrunc, if_pos (by norm_num)]
  norm_num

theorem toUint16_one : toUint16 ((1 : ℚ) * 32768) = 32768 := by
  rw [toUint16, ratTrunc_one_scaled]
  decide

theorem ratTrunc_three_scaled : ratTrunc ((3 / 65536 : ℚ) * 32768) = 1 := by
  rw [ratTrunc, if_pos (by norm_num)]
  norm_num

theorem toUint16_three : toUint16 ((3 / 65536 : ℚ) * 32768) = 1 := by
  rw [toUint16, ratTrunc_three_scaled]
  decide

theorem ratRound_three_scaled : ratRound ((3 / 65536 : ℚ) * 32768) = 2 := by
  rw [ratRound]
  norm_num

theorem ratTrunc_neg_half_scaled : ratTrunc ((-1 / 2 : ℚ) * 32768) = -16384 := by
  rw [ratTrunc, if_neg (by norm_num)]
  norm_num

theorem toUint16_neg_half : toUint16 ((-1 / 2 : ℚ) * 32768) = 49152 := by
  rw [toUint16, ratTrunc_neg_half_scaled]
  decide

/-- C2 (counterexample): the in-range sample 3/65536 scales to exactly 3/2;
round(3/2) is 2, but the packet stores the truncation 1, so decoding the
payload does not reproduce round(sample * 32768). -/
theorem createBlob_not_round_cx :
    ((-1 : ℚ) ≤ 3 / 65536 ∧ (3 / 65536 : ℚ) ≤ 1) ∧
      bytesToInt16LE (atob (createBlob [(3 / 65536 : ℚ)]).data) ≠
        [(3 / 65536 : ℚ)].map (fun s => ratRound (s * 32768)) := by
  refine ⟨by norm_num, ?_⟩
  show bytesToInt16LE (atob (btoa (int16Bytes (int16Array [(3 / 65536 : ℚ)])))) ≠ _
  rw [int16Array, List.map_cons, List.map_nil, toUint16_three,
    List.map_cons, List.map_nil, ratRound_three_scaled]
  decide

/-- C2 (amended): for every sample sequence with each sample in [-1, 1],
decoding the base64 payload of the packet back to little-endian 16-bit
signed integers yields, at every position, the value obtained by truncating
sample * 32768 toward zero and reducing modulo 2^16 (two's complement) —
truncation, not round(sample * 32768). -/
theorem createBlob_roundtrip_trunc (samples : List ℚ)
    (h : ∀ s ∈ samples, -1 ≤ s ∧ s ≤ 1) :
    bytesToInt16LE (atob (createBlob samples).data) =
      samples.map (fun s => uint16ToInt (toUint16 (s * 32768))) := by
  show bytesToInt16LE (atob (btoa (int16Bytes (int16Array samples)))) = _
  rw [atob_btoa _ (int16Bytes_lt_256 _ ?_)]
  · rw [bytesToInt16LE_int16Bytes, int16Array, List.map_map]
    rfl
  · intro u hu
    rw [int16Array] at hu
    simp only [List.mem_map] at hu
    obtain ⟨s, _, rfl⟩ := hu
    exact toUint16_lt _

/-- C2 (witness for the amended theorem): the samples 1 and -1/2 are in
range and their packet decodes to the truncated-and-wrapped values. -/
theorem createBlob_roundtrip_trunc_witness :
    (∀ s ∈ [(1 : ℚ), -1 / 2], -1 ≤ s ∧ s ≤ 1) ∧
      bytesToInt16LE (atob (createBlob [(1 : ℚ), -1 / 2]).data) =
        [(1 : ℚ), -1 / 2].map (fun s => uint16ToInt (toUint16 (s * 32768))) := by
  have hr : ∀ s ∈ [(1 : ℚ), -1 / 2], -1 ≤ s ∧ s ≤ 1 := by
    intro s hs
    simp only [List.mem_cons, List.not_mem_nil, or_false] at hs
    rcases hs with rfl | rfl <;> norm_num
  exact ⟨hr, createBlob_roundtrip_trunc [(1 : ℚ), -1 / 2] hr⟩

/-- C10: the sample 1.0 scales to 32768, which ToInt16 truncates and wraps
modulo 2^16 to the stored bit pattern 32768, read back as the signed value
-32768 — not 32768 and not a clamped 32767. -/
theorem createBlob_one_wraps :
    bytesToInt16LE (atob (createBlob [(1 : ℚ)]).data) = [-32768] ∧
      uint16ToInt (toUint16 ((1 : ℚ) * 32768)) = -32768 := by
  constructor
  · show bytesToInt16LE (atob (btoa (int16Bytes (int16Array [(1 : ℚ)])))) = _
    rw [int16Array, List.map_cons, List.map_nil, toUint16_one]
    decide
  · rw [toUint16_one]
    decide
